import Mathlib

/-!
# YouTube-Video-Downloader: `src/App.jsx`

A shallow embedding of the logic of the `App` component:

* `extractVideoId` (the regular expression of line 20, run by a backtracking matcher that
  follows the ECMAScript continuation semantics),
* the click handlers `fetchVideoDetails`, `downloadVideo`, `clearText`, each asynchronous
  handler split at its `await` into the part that runs on the click and the part that runs
  when the exchange settles,
* the parts of the rendered tree that depend on the state (the `disabled` attributes and the
  details section),
* the one browser call whose outcome a handler branches on, the setter of
  `window.location.href`, taken as a parameter (`Browser`).

JavaScript strings are modelled by `String` (a list of characters).  The regular expression has
no `u` flag and works on UTF-16 code units; every code unit of a character outside the basic
plane is a surrogate, which is none of the characters the expression names, so matching on
characters and matching on code units select the same text.
-/

namespace YouTubeDownloader

/-! ## Regular expressions -/

/-- The fragment of the regular-expression language used by `extractVideoId`. -/
inductive Regex where
  /-- A sequence of literal characters. -/
  | lit (cs : List Char)
  /-- A negated character class `[^...]`. -/
  | notIn (excluded : List Char)
  /-- Concatenation. -/
  | seq (a b : Regex)
  /-- Alternation `a|b`, left alternative first. -/
  | alt (a b : Regex)
  /-- Greedy `(?:r)?`. -/
  | opt (r : Regex)
  /-- Greedy `c+` over a one-character pattern `c`. -/
  | plus (r : Regex)
  /-- Capturing group number one. -/
  | group (r : Regex)

/-- Remove the literal `cs` from the front of the input, if it is there. -/
def dropLit : List Char → List Char → Option (List Char)
  | [], s => some s
  | _ :: _, [] => none
  | c :: cs, d :: s => if c = d then dropLit cs s else none

/-- One character of the input against a one-character pattern: the rest of the input when the
character matches.  Patterns that are not one-character patterns match nothing here. -/
def Regex.oneChar : Regex → List Char → Option (List Char)
  | .notIn ex, c :: s => if c ∈ ex then none else some s
  | .lit [c], d :: s => if c = d then some s else none
  | _, _ => none

/-- Greedy repetition, zero or more times, of the one-character pattern `r`: take one more
character when possible and try the continuation `k` there first; fall back to stopping here. -/
def Regex.star {α : Type} (r : Regex) : List Char → (List Char → Option α) → Option α
  | [], k => k []
  | c :: s, k =>
    match r.oneChar (c :: s) with
    | some _ =>
      match Regex.star r s k with
      | some x => some x
      | none => k (c :: s)
    | none => k (c :: s)

/-- The backtracking matcher.  `run r s cap k` matches `r` at the front of `s`; `cap` is the
text captured so far by group one; `k` is the continuation, called with the rest of the input
and the capture, and a `none` from it makes the matcher try its next choice. -/
def Regex.run {α : Type} :
    Regex → List Char → Option (List Char) →
      (List Char → Option (List Char) → Option α) → Option α
  | .lit cs, s, cap, k =>
    match dropLit cs s with
    | some rest => k rest cap
    | none => none
  | .notIn ex, s, cap, k =>
    match (Regex.notIn ex).oneChar s with
    | some rest => k rest cap
    | none => none
  | .seq a b, s, cap, k => a.run s cap (fun s1 cap1 => b.run s1 cap1 k)
  | .alt a b, s, cap, k =>
    match a.run s cap k with
    | some x => some x
    | none => b.run s cap k
  | .opt r, s, cap, k =>
    match r.run s cap k with
    | some x => some x
    | none => k s cap
  | .plus r, s, cap, k =>
    match r.oneChar s with
    | some rest => Regex.star r rest (fun s1 => k s1 cap)
    | none => none
  | .group r, s, cap, k =>
    r.run s cap (fun s1 _ => k s1 (some (s.take (s.length - s1.length))))

/-- A successful match: the text captured by group one (`match[1]`), `none` when the group
took no part in the match. -/
structure Match where
  group1 : Option (List Char)

/-- The matcher of a whole expression at one start position (the input from there on). -/
def Regex.matchHere (r : Regex) (s : List Char) : Option Match :=
  r.run s none (fun _ cap => some { group1 := cap })

/-- The method `String.prototype.match` with a non-global expression: the start positions are
tried from the left, the end of the input included, and the first position with a match
wins. -/
def Regex.exec (r : Regex) : List Char → Option Match
  | [] => r.matchHere []
  | c :: s =>
    match r.matchHere (c :: s) with
    | some m => some m
    | none => Regex.exec r s

/-! ## `extractVideoId` -/

/-- The literal `youtube.com/watch?v=`. -/
def watchMarker : List Char := "youtube.com/watch?v=".data

/-- The literal `youtu.be/`. -/
def shortMarker : List Char := "youtu.be/".data

/-- The characters excluded by the class `[^&?\/]`. -/
def delimiters : List Char := ['&', '?', '/']

/-- The expression
`/(?:https?:\/\/)?(?:www\.)?(?:youtube\.com\/watch\?v=|youtu\.be\/)([^&?\/]+)/`. -/
def videoIdRegex : Regex :=
  .seq (.opt (.seq (.lit "http".data) (.seq (.opt (.lit "s".data)) (.lit "://".data))))
    (.seq (.opt (.lit "www.".data))
      (.seq (.alt (.lit watchMarker) (.lit shortMarker))
        (.group (.plus (.notIn delimiters)))))

/-- The function `extractVideoId` of `App.jsx`: `match ? match[1] : null`.  The result `none`
stands for `null`. -/
def extractVideoId (url : String) : Option String :=
  match videoIdRegex.exec url.data with
  | some m => m.group1.map String.mk
  | none => none

/-! ## JavaScript values -/

/-- The values a parsed response body, or a state variable, can hold.  Numbers are kept as
integers: the code only ever tests a number for being zero.  An object lists its own
properties, each key once. -/
inductive JsVal where
  | undefined
  | null
  | bool (b : Bool)
  | num (n : Int)
  | str (s : String)
  | arr (items : List JsVal)
  | obj (fields : List (String × JsVal))

/-- What a handler can throw: a property read on `undefined` or `null`, and the assignment of a
value that is no URL to `window.location.href`. -/
inductive Thrown where
  | typeError (property : String)
  | syntaxError

/-- The outcome of `await axios.request(options)`: the promise is fulfilled with a response
whose `data` is the parsed body, or it is rejected (network error, status outside 2xx). -/
inductive Settled where
  | fulfilled (data : JsVal)
  | rejected

/-- JavaScript truthiness, as used by `!x`, `x && y`, `x || y` and `if (x)`. -/
def JsVal.truthy : JsVal → Bool
  | .undefined => false
  | .null => false
  | .bool b => b
  | .num n => decide (n ≠ 0)
  | .str s => decide (s ≠ "")
  | .arr _ => true
  | .obj _ => true

/-- The number of UTF-16 code units of a string (`s.length` in JavaScript). -/
def utf16Length (s : String) : Nat :=
  (s.data.map (fun c => if c.val < 0x10000 then 1 else 2)).sum

/-- The read `v.name` of a named property. -/
def JsVal.prop (v : JsVal) (name : String) : Except Thrown JsVal :=
  match v with
  | .undefined => .error (.typeError name)
  | .null => .error (.typeError name)
  | .obj fields => .ok ((fields.lookup name).getD .undefined)
  | .arr items => .ok (if name = "length" then .num items.length else .undefined)
  | .str s => .ok (if name = "length" then .num (utf16Length s) else .undefined)
  | .bool _ => .ok .undefined
  | .num _ => .ok .undefined

/-- The read `v[i]` of an index.  A string indexed gives a one-unit string; the model gives the
character at that place, and the code only ever reads a property of it. -/
def JsVal.index (v : JsVal) (i : Nat) : Except Thrown JsVal :=
  match v with
  | .undefined => .error (.typeError (toString i))
  | .null => .error (.typeError (toString i))
  | .obj fields => .ok ((fields.lookup (toString i)).getD .undefined)
  | .arr items => .ok ((items.get? i).getD .undefined)
  | .str s => .ok (((s.data.get? i).map (fun c => JsVal.str (String.singleton c))).getD .undefined)
  | .bool _ => .ok .undefined
  | .num _ => .ok .undefined

/-- The optional read `v?.name`: `undefined` on `undefined` and `null`. -/
def JsVal.optProp (v : JsVal) (name : String) : JsVal :=
  match v.prop name with
  | .ok x => x
  | .error _ => .undefined

/-- The optional read `v?.[i]`. -/
def JsVal.optIndex (v : JsVal) (i : Nat) : JsVal :=
  match v.index i with
  | .ok x => x
  | .error _ => .undefined

/-- The operator `a || b`. -/
def JsVal.or (a b : JsVal) : JsVal := if a.truthy then a else b

/-! ## The component state and its handlers -/

/-- The four `useState` cells of `App`. -/
structure State where
  URL : String
  videoInfo : JsVal
  error : String
  loading : Bool

/-- The two exchanges with the provider, each with the identifier it is asked about. -/
inductive Exchange where
  | details (id : String)
  | streaming (id : String)
  deriving DecidableEq

/-- The address an exchange is sent to. -/
def Exchange.url : Exchange → String
  | .details _ => "https://youtube-data8.p.rapidapi.com/video/details/"
  | .streaming _ => "https://youtube-data8.p.rapidapi.com/video/streaming-data/"

/-- What a handler does besides updating the state. -/
inductive Effect where
  | toastError (msg : String)
  | toastSuccess (msg : String)
  | consoleError
  | request (exchange : Exchange)
  | navigate (target : JsVal)

/-- The state of the first render. -/
def initialState : State := { URL := "", videoInfo := .null, error := "", loading := false }

/-- The handler `handleInput`. -/
def handleInput (value : String) (s : State) : State := { s with URL := value }

/-- The handler `fetchVideoDetails` up to its `await`.  The test `!URL` holds for the empty
string; the test `!videoId` holds for `null` and for the empty string. -/
def fetchVideoDetails (s : State) : State × List Effect :=
  if s.URL = "" then
    (s, [.toastError "Please enter a valid YouTube URL."])
  else
    match extractVideoId s.URL with
    | none => (s, [.toastError "Invalid YouTube URL format."])
    | some videoId =>
      if videoId = "" then
        (s, [.toastError "Invalid YouTube URL format."])
      else
        ({ s with error := "", loading := true }, [.request (.details videoId)])

/-- The handler `fetchVideoDetails` from its `await` on: `try`, `catch` and `finally`. -/
def fetchVideoDetailsSettled (r : Settled) (s : State) : State × List Effect :=
  match r with
  | .fulfilled data =>
    ({ s with videoInfo := data, loading := false },
      [.toastSuccess "Video details fetched successfully!"])
  | .rejected =>
    ({ s with loading := false },
      [.consoleError, .toastError "Failed to fetch video details. Please try again."])

/-- The handler `downloadVideo` up to its `await`, with the same two guards. -/
def downloadVideo (s : State) : State × List Effect :=
  if s.URL = "" then
    (s, [.toastError "Please enter a valid YouTube URL."])
  else
    match extractVideoId s.URL with
    | none => (s, [.toastError "Invalid YouTube URL format."])
    | some videoId =>
      if videoId = "" then
        (s, [.toastError "Invalid YouTube URL format."])
      else
        ({ s with error := "", loading := true }, [.request (.streaming videoId)])

/-- The part of the browser that `downloadVideo` relies on.  The setter of
`window.location.href` parses the assigned value as a URL against the address of the document:
`hrefParses` tells whether the value parses. -/
structure Browser where
  hrefParses : JsVal → Bool

/-- The statement `window.location.href = target`: the navigation starts when the value parses
as a URL, and the setter throws a `SyntaxError` when it does not. -/
def Browser.setHref (b : Browser) (target : JsVal) : Except Thrown (List Effect) :=
  if b.hrefParses target then .ok [.navigate target] else .error .syntaxError

/-- The host and port of an address that starts with `http://` or `https://`: the text after
the scheme up to the next `/`, `?`, `#` or backslash, without the credentials before an `@`. -/
def httpHostPort (address : List Char) : Option (List Char) :=
  let authority (rest : List Char) : List Char :=
    rest.takeWhile (fun c => !(c == '/' || c == '?' || c == '#' || c == Char.ofNat 92))
  let afterAt (a : List Char) : List Char := (a.reverse.takeWhile (fun c => !(c == '@'))).reverse
  match dropLit "http://".data address with
  | some rest => some (afterAt (authority rest))
  | none =>
    match dropLit "https://".data address with
    | some rest => some (afterAt (authority rest))
    | none => none

/-- A browser that follows the URL Standard on the one point the examples below need: a string
that starts with `http://` or `https://` and has a space in its host or port does not parse
(a space is a forbidden host code point and no digit).  Every other value is taken to parse;
no example below uses another value that a browser refuses. -/
def sampleBrowser : Browser where
  hrefParses
    | .str address =>
      match httpHostPort address.data with
      | some hostPort => !(hostPort.contains ' ')
      | none => true
    | _ => true

/-- The expression `response.data.formats[0]?.url`. -/
def firstFormatUrl (data : JsVal) : Except Thrown JsVal := do
  let formats ← data.prop "formats"
  let first ← formats.index 0
  pure (first.optProp "url")

/-- The handler `downloadVideo` from its `await` on: `try`, `catch` and `finally`.  The `catch`
receives the rejection of the exchange and whatever the statements of the `try` throw, the
assignment to `window.location.href` included. -/
def downloadVideoSettled (b : Browser) (r : Settled) (s : State) : State × List Effect :=
  match r with
  | .rejected =>
    ({ s with loading := false },
      [.toastError "Failed to download video. Please try again.", .consoleError])
  | .fulfilled data =>
    if !((data.optProp "formats").optProp "length").truthy then
      ({ s with loading := false }, [.toastError "No streaming data available for this video."])
    else
      match firstFormatUrl data with
      | .error _ =>
        ({ s with loading := false },
          [.toastError "Failed to download video. Please try again.", .consoleError])
      | .ok downloadUrl =>
        if downloadUrl.truthy then
          match b.setHref downloadUrl with
          | .ok started =>
            ({ s with loading := false },
              started ++ [.toastSuccess "Download started successfully!"])
          | .error _ =>
            ({ s with loading := false },
              [.toastError "Failed to download video. Please try again.", .consoleError])
        else
          ({ s with loading := false }, [.toastError "No valid download link found."])

/-- The handler `clearText`. -/
def clearText (s : State) : State := { s with URL := "", videoInfo := .str "" }

/-! ## The rendered tree -/

/-- The attribute `disabled` of the fetch button. -/
def fetchDisabled (s : State) : Bool := s.loading

/-- The attribute `disabled` of the download button. -/
def downloadDisabled (s : State) : Bool := s.loading || !s.videoInfo.truthy

/-- The guard `videoInfo && !loading` of the details section. -/
def detailsShown (s : State) : Bool := s.videoInfo.truthy && !s.loading

/-- The values the details section hands to the renderer. -/
structure DetailsSection where
  thumbnailSrc : JsVal
  title : JsVal
  description : JsVal
  views : JsVal
  likes : JsVal
  comments : JsVal

/-- The details section of the returned tree: `none` when the guard hides it, an exception
when the evaluation of one of its expressions throws. -/
def renderDetails (s : State) : Except Thrown (Option DetailsSection) :=
  if detailsShown s then do
    let thumbnails ← s.videoInfo.prop "thumbnails"
    let thumbnailSrc := ((thumbnails.optIndex 0).optProp "url").or (.str "")
    let title ← s.videoInfo.prop "title"
    let description ← s.videoInfo.prop "description"
    let views ← (← s.videoInfo.prop "stats").prop "views"
    let likes ← (← s.videoInfo.prop "stats").prop "likes"
    let comments ← (← s.videoInfo.prop "stats").prop "comments"
    pure (some { thumbnailSrc, title, description, views, likes, comments })
  else
    pure none

/-! ## The interface as a transition system -/

/-- The component state together with the exchanges that were issued and have not settled. -/
structure World where
  ui : State
  outstanding : List Exchange

/-- What can happen to the page. -/
inductive Event where
  | input (value : String)
  | fetchClick
  | downloadClick
  | clearClick
  | settle (i : Nat) (r : Settled)

/-- The exchanges a list of effects issues. -/
def issued : List Effect → List Exchange
  | [] => []
  | .request x :: fx => x :: issued fx
  | _ :: fx => issued fx

/-- The world before any event. -/
def World.init : World := { ui := initialState, outstanding := [] }

/-- One event.  A click on a disabled button reaches no handler; the settling of the exchange
number `i` resumes the handler that awaits it. -/
def World.step (b : Browser) (w : World) : Event → World
  | .input value => { w with ui := handleInput value w.ui }
  | .fetchClick =>
    if fetchDisabled w.ui then w
    else
      { ui := (fetchVideoDetails w.ui).1
        outstanding := w.outstanding ++ issued (fetchVideoDetails w.ui).2 }
  | .downloadClick =>
    if downloadDisabled w.ui then w
    else
      { ui := (downloadVideo w.ui).1
        outstanding := w.outstanding ++ issued (downloadVideo w.ui).2 }
  | .clearClick => { w with ui := clearText w.ui }
  | .settle i r =>
    match w.outstanding.get? i with
    | none => w
    | some (.details _) =>
      { ui := (fetchVideoDetailsSettled r w.ui).1, outstanding := w.outstanding.eraseIdx i }
    | some (.streaming _) =>
      { ui := (downloadVideoSettled b r w.ui).1, outstanding := w.outstanding.eraseIdx i }

/-- The world after a sequence of events. -/
def World.run (b : Browser) (es : List Event) : World := es.foldl (World.step b) World.init

/-! ## The reference definition of the identifier -/

/-- Whether a character is one of `&`, `?`, `/`. -/
def isDelimiter (c : Char) : Bool := c == '&' || c == '?' || c == '/'

/-- The maximal run of characters other than `&`, `?`, `/` at the front of `t`. -/
def idRun (t : List Char) : List Char := t.takeWhile (fun c => !isDelimiter c)

/-- The marker `m` occurs at the front of `t` and is immediately followed by a character
other than `&`, `?`, `/`: the maximal run of such characters after the marker. -/
def runAfter (m t : List Char) : Option (List Char) :=
  if m.isPrefixOf t then
    match t.drop m.length with
    | [] => none
    | c :: rest => if isDelimiter c then none else some (idRun (c :: rest))
  else none

/-- The run after whichever of the two markers occurs at the front of `t`. -/
def idAt (t : List Char) : Option (List Char) :=
  match runAfter watchMarker t with
  | some run => some run
  | none => runAfter shortMarker t

/-- The reference definition of the identifier, position by position: the run found at the
leftmost position at which a marker occurs followed by a character other than `&`, `?`, `/`;
`none` when there is no such position. -/
def refExtractVideoId (url : String) : Option String :=
  ((List.range (url.data.length + 1)).findSome? (fun p => idAt (url.data.drop p))).map String.mk

/-- The match of the expression from the marker on, stated with `idAt`. -/
def markerMatch (t : List Char) : Option Match :=
  (idAt t).map (fun run => { group1 := some run })

/-- The first success of `f` over the suffixes of the input, from the left. -/
def scan {α : Type} (f : List Char → Option α) : List Char → Option α
  | [] => f []
  | c :: s =>
    match f (c :: s) with
    | some x => some x
    | none => scan f s

/-- The state of a world reachable in the transition system: the busy flag is up exactly when
an exchange is outstanding, and there is at most one. -/
def World.Inv (w : World) : Prop :=
  (w.ui.loading = true ↔ w.outstanding ≠ []) ∧ w.outstanding.length ≤ 1

/-! ## Lemmas on the matcher -/

theorem dropLit_eq_some {p s r : List Char} : dropLit p s = some r ↔ s = p ++ r := by
  induction p generalizing s with
  | nil => simp [dropLit, eq_comm]
  | cons c cs ih =>
    cases s with
    | nil => simp [dropLit]
    | cons d s =>
      by_cases h : c = d
      · subst h
        simp [dropLit, ih]
      · have h2 : ¬ d = c := fun e => h e.symm
        simp [dropLit, h, h2]

theorem dropLit_append (p r : List Char) : dropLit p (p ++ r) = some r :=
  dropLit_eq_some.mpr rfl

theorem isDelimiter_iff (c : Char) : isDelimiter c = true ↔ c ∈ delimiters := by
  simp [isDelimiter, delimiters, or_assoc]

theorem take_length_sub_dropWhile (p : Char → Bool) (l : List Char) :
    l.take (l.length - (l.dropWhile p).length) = l.takeWhile p := by
  have h := List.takeWhile_append_dropWhile p l
  have hl : (l.takeWhile p).length + (l.dropWhile p).length = l.length := by
    rw [← List.length_append, h]
  rw [← hl, Nat.add_sub_cancel]
  calc l.take (l.takeWhile p).length
      = (l.takeWhile p ++ l.dropWhile p).take (l.takeWhile p).length := by rw [h]
    _ = l.takeWhile p := List.take_left _ _

theorem star_notIn_total {α : Type} (ex : List Char) (f : List Char → α) (s : List Char) :
    Regex.star (.notIn ex) s (fun s1 => some (f s1))
      = some (f (s.dropWhile (fun c => decide (c ∉ ex)))) := by
  induction s with
  | nil => simp [Regex.star]
  | cons c s ih =>
    by_cases h : c ∈ ex
    · simp [Regex.star, Regex.oneChar, h]
    · simp [Regex.star, Regex.oneChar, h, ih]

theorem run_idGroup (s : List Char) (cap : Option (List Char)) :
    (Regex.group (.plus (.notIn delimiters))).run s cap (fun _ c => some (Match.mk c))
      = match s with
        | [] => none
        | c :: t => if isDelimiter c then none else some ⟨some (idRun (c :: t))⟩ := by
  cases s with
  | nil => simp [Regex.run, Regex.oneChar]
  | cons c t =>
    by_cases h : c ∈ delimiters
    · simp [Regex.run, Regex.oneChar, h, (isDelimiter_iff c).mpr h]
    · have hd : isDelimiter c = false := by
        cases hc : isDelimiter c
        · rfl
        · exact absurd ((isDelimiter_iff c).mp hc) h
      simp only [Regex.run, Regex.oneChar, h, if_false]
      rw [star_notIn_total delimiters
        (fun s1 => Match.mk (some ((c :: t).take ((c :: t).length - s1.length))))]
      simp only [hd, Bool.false_eq_true, if_false]
      have e : (fun c => decide (c ∉ delimiters)) = (fun c => !isDelimiter c) := by
        funext x
        by_cases hx : x ∈ delimiters
        · simp [hx, (isDelimiter_iff x).mpr hx]
        · have : isDelimiter x = false := by
            cases hc : isDelimiter x
            · rfl
            · exact absurd ((isDelimiter_iff x).mp hc) hx
          simp [hx, this]
      rw [e]
      have h1 : t.dropWhile (fun c => !isDelimiter c)
          = (c :: t).dropWhile (fun c => !isDelimiter c) := by
        simp [List.dropWhile, hd]
      rw [h1, take_length_sub_dropWhile]
      rfl

theorem run_lit_eq_some {α : Type} {p s : List Char} {cap : Option (List Char)}
    {k : List Char → Option (List Char) → Option α} {x : α} :
    (Regex.lit p).run s cap k = some x ↔ ∃ rest, s = p ++ rest ∧ k rest cap = some x := by
  simp only [Regex.run]
  cases h : dropLit p s with
  | none =>
    constructor
    · intro hk
      cases hk
    · rintro ⟨rest, hs, _⟩
      rw [dropLit_eq_some.mpr hs] at h
      cases h
  | some r =>
    have hs := dropLit_eq_some.mp h
    constructor
    · intro hk
      exact ⟨r, hs, hk⟩
    · rintro ⟨rest, hs2, hk⟩
      have : r = rest := List.append_cancel_left (hs.symm.trans hs2)
      subst this
      exact hk

theorem run_opt_eq_some {α : Type} {r : Regex} {s : List Char} {cap : Option (List Char)}
    {k : List Char → Option (List Char) → Option α} {x : α} :
    (Regex.opt r).run s cap k = some x ↔
      r.run s cap k = some x ∨ (r.run s cap k = none ∧ k s cap = some x) := by
  simp only [Regex.run]
  cases h : r.run s cap k <;> simp

/-- The continuation that ends a match. -/
theorem matchHere_def (r : Regex) (s : List Char) :
    r.matchHere s = r.run s none (fun _ cap => some (Match.mk cap)) := rfl

theorem runAfter_eq (m s : List Char) :
    runAfter m s =
      match dropLit m s with
      | some (c :: t) => if isDelimiter c then none else some (idRun (c :: t))
      | _ => none := by
  cases h : dropLit m s with
  | none =>
    have hp : m.isPrefixOf s = false := by
      cases hb : m.isPrefixOf s
      · rfl
      · obtain ⟨t, ht⟩ := List.isPrefixOf_iff_prefix.mp hb
        rw [dropLit_eq_some.mpr ht.symm] at h
        cases h
    simp [runAfter, hp]
  | some r =>
    have hs := dropLit_eq_some.mp h
    subst hs
    have hp : m.isPrefixOf (m ++ r) = true :=
      List.isPrefixOf_iff_prefix.mpr (List.prefix_append m r)
    cases r <;> simp [runAfter, hp]

theorem run_markerPart (s : List Char) :
    (Regex.seq (.alt (.lit watchMarker) (.lit shortMarker))
        (.group (.plus (.notIn delimiters)))).run s none (fun _ c => some (Match.mk c))
      = markerMatch s := by
  have hseq : ∀ (a b : Regex) (k : List Char → Option (List Char) → Option Match),
      (Regex.seq a b).run s none k = a.run s none (fun s1 cap1 => b.run s1 cap1 k) := by
    intro a b k
    simp only [Regex.run]
  have halt : ∀ (a b : Regex) (k : List Char → Option (List Char) → Option Match),
      (Regex.alt a b).run s none k
        = match a.run s none k with
          | some x => some x
          | none => b.run s none k := by
    intro a b k
    simp only [Regex.run]
    cases a.run s none k <;> rfl
  have hlit : ∀ (m : List Char) (k : List Char → Option (List Char) → Option Match),
      (Regex.lit m).run s none k
        = match dropLit m s with
          | some rest => k rest none
          | none => none := by
    intro m k
    simp only [Regex.run]
  rw [hseq]
  simp only [run_idGroup]
  rw [halt, hlit, hlit]
  simp only [markerMatch, idAt, runAfter_eq]
  cases h1 : dropLit watchMarker s with
  | none =>
    cases h2 : dropLit shortMarker s with
    | none => simp
    | some r2 =>
      cases r2 with
      | nil => simp
      | cons c t => by_cases hc : isDelimiter c = true <;> simp [hc]
  | some r1 =>
    have e1 := dropLit_eq_some.mp h1
    have h2 : dropLit shortMarker s = none := by
      cases h : dropLit shortMarker s with
      | none => rfl
      | some r2 =>
        have e2 := dropLit_eq_some.mp h
        rw [e1] at e2
        simp [watchMarker, shortMarker] at e2
    rw [h2]
    cases r1 with
    | nil => simp
    | cons c t => by_cases hc : isDelimiter c = true <;> simp [hc]

theorem run_seq {α : Type} (a b : Regex) (s : List Char) (cap : Option (List Char))
    (k : List Char → Option (List Char) → Option α) :
    (Regex.seq a b).run s cap k = a.run s cap (fun s1 cap1 => b.run s1 cap1 k) := by
  simp only [Regex.run]

/-- A match of the part from `www.` on: the marker part matched after a text without `y`. -/
theorem run_wwwPart_some {s : List Char} {m : Match}
    (h : (Regex.seq (.opt (.lit "www.".data))
        (.seq (.alt (.lit watchMarker) (.lit shortMarker))
          (.group (.plus (.notIn delimiters))))).run s none (fun _ c => some (Match.mk c))
      = some m) :
    ∃ pre rest, s = pre ++ rest ∧ 'y' ∉ pre ∧ markerMatch rest = some m := by
  rw [run_seq, run_opt_eq_some, run_lit_eq_some] at h
  rcases h with ⟨rest, hs, hm⟩ | ⟨_, hm⟩
  · rw [run_markerPart] at hm
    exact ⟨"www.".data, rest, hs, by decide, hm⟩
  · rw [run_markerPart] at hm
    exact ⟨[], s, rfl, by simp, hm⟩

/-- A match at a position: the marker part matched after a text without `y`. -/
theorem matchHere_some {s : List Char} {m : Match} (h : videoIdRegex.matchHere s = some m) :
    ∃ pre rest, s = pre ++ rest ∧ 'y' ∉ pre ∧ markerMatch rest = some m := by
  rw [matchHere_def, videoIdRegex, run_seq, run_opt_eq_some] at h
  rcases h with h | ⟨_, h⟩
  · rw [run_seq, run_lit_eq_some] at h
    obtain ⟨r1, hs1, h⟩ := h
    rw [run_seq, run_opt_eq_some] at h
    rcases h with h | ⟨_, h⟩
    · rw [run_lit_eq_some] at h
      obtain ⟨r2, hs2, h⟩ := h
      rw [run_lit_eq_some] at h
      obtain ⟨r3, hs3, h⟩ := h
      obtain ⟨pre, rest, hs4, hy, hm⟩ := run_wwwPart_some h
      refine ⟨"https://".data ++ pre, rest, ?_, ?_, hm⟩
      · rw [hs1, hs2, hs3, hs4]
        simp
      · intro hmem
        rcases List.mem_append.mp hmem with h5 | h5
        · revert h5
          decide
        · exact hy h5
    · rw [run_lit_eq_some] at h
      obtain ⟨r3, hs3, h⟩ := h
      obtain ⟨pre, rest, hs4, hy, hm⟩ := run_wwwPart_some h
      refine ⟨"http://".data ++ pre, rest, ?_, ?_, hm⟩
      · rw [hs1, hs3, hs4]
        simp
      · intro hmem
        rcases List.mem_append.mp hmem with h5 | h5
        · revert h5
          decide
        · exact hy h5
  · exact run_wwwPart_some h

theorem markerMatch_some_head {s : List Char} {m : Match} (h : markerMatch s = some m) :
    ∃ t, s = 'y' :: t := by
  simp only [markerMatch, idAt, runAfter_eq, Option.map_eq_some'] at h
  obtain ⟨g, hg, _⟩ := h
  cases h1 : dropLit watchMarker s with
  | some r1 =>
    have e := dropLit_eq_some.mp h1
    exact ⟨_, by rw [e]; rfl⟩
  | none =>
    rw [h1] at hg
    cases h2 : dropLit shortMarker s with
    | some r2 =>
      have e := dropLit_eq_some.mp h2
      exact ⟨_, by rw [e]; rfl⟩
    | none =>
      rw [h2] at hg
      simp at hg

theorem markerMatch_eq_none_of_ne {c : Char} (t : List Char) (hc : c ≠ 'y') :
    markerMatch (c :: t) = none := by
  cases h : markerMatch (c :: t) with
  | none => rfl
  | some m =>
    obtain ⟨t2, ht⟩ := markerMatch_some_head h
    simp at ht
    exact absurd ht.1 hc

/-- A position where the marker part matches is a position where the expression matches. -/
theorem matchHere_of_markerMatch {s : List Char} {m : Match} (h : markerMatch s = some m) :
    videoIdRegex.matchHere s = some m := by
  obtain ⟨t, rfl⟩ := markerMatch_some_head h
  rw [← run_markerPart] at h
  rw [matchHere_def, videoIdRegex, run_seq, run_opt_eq_some]
  right
  constructor
  · simp [Regex.run, dropLit]
  · rw [run_seq, run_opt_eq_some]
    right
    constructor
    · simp [Regex.run, dropLit]
    · exact h

theorem scan_of_head {α : Type} {f : List Char → Option α} {s : List Char} {x : α}
    (h : f s = some x) : scan f s = some x := by
  cases s with
  | nil => simpa [scan] using h
  | cons c t => simp [scan, h]

theorem exec_eq_scan (r : Regex) (s : List Char) : r.exec s = scan r.matchHere s := by
  induction s with
  | nil => rfl
  | cons c t ih =>
    simp only [Regex.exec, scan, ih]
    cases r.matchHere (c :: t) <;> rfl

theorem scan_markerMatch_skip (pre rest : List Char) (hy : 'y' ∉ pre) :
    scan markerMatch (pre ++ rest) = scan markerMatch rest := by
  induction pre with
  | nil => rfl
  | cons c p ih =>
    have hc : c ≠ 'y' := fun e => hy (by simp [e])
    have hp : 'y' ∉ p := fun e => hy (List.mem_cons_of_mem _ e)
    rw [List.cons_append]
    simp only [scan, markerMatch_eq_none_of_ne _ hc]
    exact ih hp

/-- The leftmost match of the expression is the leftmost match of its marker part. -/
theorem exec_videoIdRegex (s : List Char) : videoIdRegex.exec s = scan markerMatch s := by
  rw [exec_eq_scan]
  induction s with
  | nil =>
    cases hm : videoIdRegex.matchHere [] with
    | some m =>
      obtain ⟨pre, rest, hs, hy, hr⟩ := matchHere_some hm
      rw [scan_of_head hm, hs, scan_markerMatch_skip pre rest hy, scan_of_head hr]
    | none =>
      cases hr : markerMatch [] with
      | some m => rw [matchHere_of_markerMatch hr] at hm; cases hm
      | none => simp [scan, hm, hr]
  | cons c t ih =>
    cases hm : videoIdRegex.matchHere (c :: t) with
    | some m =>
      obtain ⟨pre, rest, hs, hy, hr⟩ := matchHere_some hm
      rw [scan_of_head hm, hs, scan_markerMatch_skip pre rest hy, scan_of_head hr]
    | none =>
      cases hr : markerMatch (c :: t) with
      | some m => rw [matchHere_of_markerMatch hr] at hm; cases hm
      | none => simp only [scan, hm, hr, ih]

theorem findSome_range_eq_scan {α : Type} (f : List Char → Option α) (s : List Char) :
    (List.range (s.length + 1)).findSome? (fun p => f (s.drop p)) = scan f s := by
  induction s with
  | nil =>
    have h1 : List.range ([] : List Char).length.succ = [0] := rfl
    rw [h1]
    simp only [List.findSome?, List.drop_nil, scan]
    cases f [] <;> rfl
  | cons c t ih =>
    rw [List.length_cons, List.range_succ_eq_map, List.findSome?_cons, List.findSome?_map]
    simp only [scan, List.drop_zero]
    cases f (c :: t) with
    | some x => rfl
    | none =>
      simp only [Function.comp_def, List.drop_succ_cons]
      exact ih

/-- The source function through the marker part. -/
theorem extractVideoId_eq_scan (url : String) :
    extractVideoId url = ((scan idAt url.data).map String.mk) := by
  have h : ∀ s : List Char,
      scan markerMatch s = (scan idAt s).map (fun g => Match.mk (some g)) := by
    intro s
    induction s with
    | nil => simp [scan, markerMatch]
    | cons c t ih =>
      simp only [scan, markerMatch]
      cases idAt (c :: t) with
      | some g => rfl
      | none => exact ih
  simp only [extractVideoId, exec_videoIdRegex, h]
  cases scan idAt url.data <;> rfl

theorem idAt_eq_none_of_ne {c : Char} (t : List Char) (hc : c ≠ 'y') : idAt (c :: t) = none := by
  have h := markerMatch_eq_none_of_ne t hc
  simpa [markerMatch] using h

theorem scan_idAt_skip (pre rest : List Char) (hy : 'y' ∉ pre) :
    scan idAt (pre ++ rest) = scan idAt rest := by
  induction pre with
  | nil => rfl
  | cons c p ih =>
    have hc : c ≠ 'y' := fun e => hy (by simp [e])
    have hp : 'y' ∉ p := fun e => hy (List.mem_cons_of_mem _ e)
    rw [List.cons_append]
    simp only [scan, idAt_eq_none_of_ne _ hc]
    exact ih hp

theorem scan_some {α : Type} {f : List Char → Option α} {s : List Char} {x : α}
    (h : scan f s = some x) : ∃ pre suf, s = pre ++ suf ∧ f suf = some x := by
  induction s with
  | nil => exact ⟨[], [], rfl, by simpa [scan] using h⟩
  | cons c t ih =>
    simp only [scan] at h
    cases hf : f (c :: t) with
    | some y =>
      rw [hf] at h
      exact ⟨[], c :: t, rfl, by rw [hf]; exact h⟩
    | none =>
      rw [hf] at h
      obtain ⟨pre, suf, hs, hx⟩ := ih h
      exact ⟨c :: pre, suf, by rw [hs]; rfl, hx⟩

theorem runAfter_some {m s g : List Char} (h : runAfter m s = some g) :
    ∃ c t, s = m ++ (c :: t) ∧ isDelimiter c = false ∧ g = idRun (c :: t) := by
  rw [runAfter_eq] at h
  cases hd : dropLit m s with
  | none => rw [hd] at h; cases h
  | some r =>
    rw [hd] at h
    cases r with
    | nil => cases h
    | cons c t =>
      cases hc : isDelimiter c with
      | true => simp [hc] at h
      | false =>
        simp [hc] at h
        exact ⟨c, t, dropLit_eq_some.mp hd, hc, h.symm⟩

theorem idAt_some {s g : List Char} (h : idAt s = some g) :
    ∃ m c t, (m = watchMarker ∨ m = shortMarker) ∧ s = m ++ (c :: t) ∧
      isDelimiter c = false ∧ g = idRun (c :: t) := by
  simp only [idAt] at h
  cases h1 : runAfter watchMarker s with
  | some g1 =>
    rw [h1] at h
    cases h
    obtain ⟨c, t, hs, hc, hg⟩ := runAfter_some h1
    exact ⟨watchMarker, c, t, Or.inl rfl, hs, hc, hg⟩
  | none =>
    rw [h1] at h
    obtain ⟨c, t, hs, hc, hg⟩ := runAfter_some h
    exact ⟨shortMarker, c, t, Or.inr rfl, hs, hc, hg⟩

theorem idAt_marker_append {m : List Char} (hm : m = watchMarker ∨ m = shortMarker)
    (c : Char) (t : List Char) (hc : isDelimiter c = false) :
    idAt (m ++ (c :: t)) = some (idRun (c :: t)) := by
  rcases hm with rfl | rfl
  · simp only [idAt, runAfter_eq, dropLit_append, hc]
    rfl
  · have h1 : dropLit watchMarker (shortMarker ++ (c :: t)) = none := by
      simp [watchMarker, shortMarker, dropLit]
    simp only [idAt, runAfter_eq, dropLit_append, hc, h1]
    rfl

theorem idRun_props (c : Char) (t : List Char) (hc : isDelimiter c = false) :
    idRun (c :: t) ≠ [] ∧ (∀ x ∈ idRun (c :: t), isDelimiter x = false) ∧
      ∃ suf, c :: t = idRun (c :: t) ++ suf := by
  refine ⟨?_, ?_, ?_⟩
  · simp [idRun, List.takeWhile, hc]
  · intro x hx
    have := List.mem_takeWhile_imp hx
    simpa using this
  · exact ⟨(c :: t).dropWhile (fun c => !isDelimiter c),
      (List.takeWhile_append_dropWhile _ _).symm⟩

theorem extractVideoId_some_core {url id : String} (h : extractVideoId url = some id) :
    ∃ pre m c t suf, (m = watchMarker ∨ m = shortMarker) ∧ isDelimiter c = false ∧
      id.data = idRun (c :: t) ∧ c :: t = id.data ++ suf ∧
      url.data = pre ++ (m ++ (id.data ++ suf)) := by
  rw [extractVideoId_eq_scan] at h
  cases hs : scan idAt url.data with
  | none => rw [hs] at h; cases h
  | some g =>
    rw [hs] at h
    simp only [Option.map_some', Option.some.injEq] at h
    subst h
    obtain ⟨pre, rest, hurl, hat⟩ := scan_some hs
    obtain ⟨m, c, t, hm, hrest, hc, hg⟩ := idAt_some hat
    obtain ⟨_, _, suf, hsuf⟩ := idRun_props c t hc
    refine ⟨pre, m, c, t, suf, hm, hc, hg, ?_, ?_⟩
    · rw [hsuf]
      simp [hg]
    · rw [hurl, hrest, hsuf]
      simp [hg]

/-! ## The claims on `extractVideoId` -/

/-- C1: for every scheme among the empty one, `http://` and `https://`, every subdomain text
among the empty one and `www.`, each of the two markers and every `r` that starts with a
character other than `&`, `?`, `/`, the identifier extracted from
`scheme ++ sub ++ marker ++ r` is the longest initial part of `r` free of `&`, `?`, `/`. -/
theorem extractVideoId_of_url (scheme sub marker r : String)
    (hscheme : scheme = "" ∨ scheme = "http://" ∨ scheme = "https://")
    (hsub : sub = "" ∨ sub = "www.")
    (hmarker : marker = "youtube.com/watch?v=" ∨ marker = "youtu.be/")
    (hr : ∃ c t, r.data = c :: t ∧ c ≠ '&' ∧ c ≠ '?' ∧ c ≠ '/') :
    extractVideoId (scheme ++ sub ++ marker ++ r)
      = some (String.mk (r.data.takeWhile (fun c => decide (c ≠ '&' ∧ c ≠ '?' ∧ c ≠ '/')))) := by
  obtain ⟨c, t, hrd, h1, h2, h3⟩ := hr
  have hc : isDelimiter c = false := by simp [isDelimiter, h1, h2, h3]
  have hfun : (fun c => decide (c ≠ '&' ∧ c ≠ '?' ∧ c ≠ '/')) = (fun c => !isDelimiter c) := by
    funext x
    by_cases a : x = '&' <;> by_cases b : x = '?' <;> by_cases d : x = '/' <;>
      simp [isDelimiter, a, b, d]
  have hm : marker.data = watchMarker ∨ marker.data = shortMarker := by
    rcases hmarker with rfl | rfl
    · exact Or.inl rfl
    · exact Or.inr rfl
  have hy : 'y' ∉ scheme.data ++ sub.data := by
    rcases hscheme with rfl | rfl | rfl <;> rcases hsub with rfl | rfl <;> decide
  have hdata : (scheme ++ sub ++ marker ++ r).data
      = (scheme.data ++ sub.data) ++ (marker.data ++ (c :: t)) := by
    simp [String.data_append, hrd]
  rw [extractVideoId_eq_scan, hdata, scan_idAt_skip _ _ hy,
    scan_of_head (idAt_marker_append hm c t hc), hfun, hrd]
  rfl

/-- C1, the two scenarios of the specification. -/
theorem extractVideoId_of_url_witness :
    extractVideoId ("https://" ++ "www." ++ "youtube.com/watch?v=" ++ "abc123&t=5s")
        = some "abc123" ∧
      extractVideoId ("https://" ++ "" ++ "youtu.be/" ++ "xyz789") = some "xyz789" :=
  ⟨(extractVideoId_of_url "https://" "www." "youtube.com/watch?v=" "abc123&t=5s"
      (by decide) (by decide) (by decide) ⟨'a', "bc123&t=5s".data, by decide⟩).trans (by decide),
   (extractVideoId_of_url "https://" "" "youtu.be/" "xyz789"
      (by decide) (by decide) (by decide) ⟨'x', "yz789".data, by decide⟩).trans (by decide)⟩

/-- C2: a string that contains neither `youtube.com/watch?v=` nor `youtu.be/` has no
identifier: the result is `null`, an ordinary result of a total function. -/
theorem extractVideoId_none_of_no_marker (url : String)
    (hwatch : ¬ ("youtube.com/watch?v=".data <:+: url.data))
    (hshort : ¬ ("youtu.be/".data <:+: url.data)) :
    extractVideoId url = none := by
  cases h : extractVideoId url with
  | none => rfl
  | some id =>
    obtain ⟨pre, m, c, t, suf, hm, _, _, _, hurl⟩ := extractVideoId_some_core h
    have hin : m <:+: url.data := ⟨pre, id.data ++ suf, by rw [hurl]; simp⟩
    rcases hm with rfl | rfl
    · exact absurd hin hwatch
    · exact absurd hin hshort

/-- C2 on the empty string, on `not a url` and on a bare identifier. -/
theorem extractVideoId_none_of_no_marker_witness :
    extractVideoId "" = none ∧ extractVideoId "not a url" = none ∧
      extractVideoId "abc123" = none :=
  ⟨extractVideoId_none_of_no_marker "" (by decide) (by decide),
   extractVideoId_none_of_no_marker "not a url" (by decide) (by decide),
   extractVideoId_none_of_no_marker "abc123" (by decide) (by decide)⟩

/-- C3: an extracted identifier is non-empty, holds none of `&`, `?`, `/`, and stands in the
input, unchanged, right after an occurrence of one of the two markers; the empty string is
never returned, and group one takes part in every match, so that `match[1]` is a string. -/
theorem extractVideoId_result (url : String) :
    extractVideoId url ≠ some "" ∧
      (∀ m, videoIdRegex.exec url.data = some m → m.group1 ≠ none) ∧
      ∀ id, extractVideoId url = some id →
        id ≠ "" ∧ (∀ c ∈ id.data, c ≠ '&' ∧ c ≠ '?' ∧ c ≠ '/') ∧
          ∃ pre marker suf : String,
            (marker = "youtube.com/watch?v=" ∨ marker = "youtu.be/") ∧
              url = pre ++ marker ++ id ++ suf := by
  have main : ∀ id, extractVideoId url = some id →
      id ≠ "" ∧ (∀ c ∈ id.data, c ≠ '&' ∧ c ≠ '?' ∧ c ≠ '/') ∧
        ∃ pre marker suf : String,
          (marker = "youtube.com/watch?v=" ∨ marker = "youtu.be/") ∧
            url = pre ++ marker ++ id ++ suf := by
    intro id h
    obtain ⟨pre, m, c, t, suf, hm, hc, hid, _, hurl⟩ := extractVideoId_some_core h
    obtain ⟨hne, hall, _⟩ := idRun_props c t hc
    rw [← hid] at hne hall
    refine ⟨?_, ?_, ?_⟩
    · intro e
      apply hne
      rw [e]
    · intro x hx
      have hx2 := hall x hx
      refine ⟨?_, ?_, ?_⟩ <;> intro e <;> subst e <;> revert hx2 <;> decide
    · refine ⟨String.mk pre, String.mk m, String.mk suf, ?_, ?_⟩
      · rcases hm with rfl | rfl
        · exact Or.inl rfl
        · exact Or.inr rfl
      · apply String.ext
        simp [String.data_append, hurl]
  refine ⟨?_, ?_, main⟩
  · intro h
    exact (main "" h).1 rfl
  · intro m hm
    rw [exec_videoIdRegex] at hm
    obtain ⟨_, suf, _, hs⟩ := scan_some hm
    simp only [markerMatch, Option.map_eq_some'] at hs
    obtain ⟨g, _, hg⟩ := hs
    rw [← hg]
    simp

/-- C3 on a short link whose identifier mixes upper and lower case. -/
theorem extractVideoId_result_witness :
    extractVideoId "https://youtu.be/xYz789?t=1" = some "xYz789" ∧
      "xYz789" ≠ "" ∧ (∀ c ∈ "xYz789".data, c ≠ '&' ∧ c ≠ '?' ∧ c ≠ '/') ∧
        ∃ pre marker suf : String,
          (marker = "youtube.com/watch?v=" ∨ marker = "youtu.be/") ∧
            "https://youtu.be/xYz789?t=1" = pre ++ marker ++ "xYz789" ++ suf :=
  ⟨by decide,
    (extractVideoId_result "https://youtu.be/xYz789?t=1").2.2 "xYz789" (by decide)⟩

/-- C10: `extractVideoId` is the reference definition: the maximal run of characters other
than `&`, `?`, `/` after the leftmost marker that is followed by such a character.  Text before
the marker is free, a marker followed by a delimiter or by the end is passed over, and a `v`
that is not the first query parameter is not seen. -/
theorem extractVideoId_eq_reference :
    (∀ url : String, extractVideoId url = refExtractVideoId url) ∧
      extractVideoId "https://evil.example/?u=youtu.be/abc" = some "abc" ∧
      extractVideoId "https://www.youtube.com/watch?v=&x=youtu.be/zzz" = some "zzz" ∧
      extractVideoId "https://youtu.be/" = none ∧
      extractVideoId "https://www.youtube.com/watch?feature=share&v=abc" = none := by
  refine ⟨?_, by decide, by decide, by decide, by decide⟩
  intro url
  rw [extractVideoId_eq_scan, refExtractVideoId, findSome_range_eq_scan]

/-! ## The claims on the handlers -/

/-- C4: with an empty input, or an input without identifier, `fetchVideoDetails` and
`downloadVideo` leave the state as it is and issue no exchange; their only effect is one error
toast, `Please enter a valid YouTube URL.` for the empty input and
`Invalid YouTube URL format.` for the other. -/
theorem handlers_reject_input (s : State) :
    (s.URL = "" →
      fetchVideoDetails s = (s, [.toastError "Please enter a valid YouTube URL."]) ∧
      downloadVideo s = (s, [.toastError "Please enter a valid YouTube URL."])) ∧
    (s.URL ≠ "" → extractVideoId s.URL = none →
      fetchVideoDetails s = (s, [.toastError "Invalid YouTube URL format."]) ∧
      downloadVideo s = (s, [.toastError "Invalid YouTube URL format."])) ∧
    ((s.URL = "" ∨ extractVideoId s.URL = none) →
      issued (fetchVideoDetails s).2 = [] ∧ issued (downloadVideo s).2 = [] ∧
      (fetchVideoDetails s).1 = s ∧ (downloadVideo s).1 = s) := by
  refine ⟨?_, ?_, ?_⟩
  · intro h
    simp [fetchVideoDetails, downloadVideo, h]
  · intro h hx
    simp [fetchVideoDetails, downloadVideo, h, hx]
  · intro h
    by_cases he : s.URL = ""
    · simp [fetchVideoDetails, downloadVideo, he, issued]
    · rcases h with h | h
      · exact absurd h he
      · simp [fetchVideoDetails, downloadVideo, he, h, issued]

/-- C4 on the input `not a url`, with a stored result and the empty input. -/
theorem handlers_reject_input_witness :
    fetchVideoDetails { URL := "not a url", videoInfo := .null, error := "", loading := false }
      = ({ URL := "not a url", videoInfo := .null, error := "", loading := false },
          [.toastError "Invalid YouTube URL format."]) ∧
    downloadVideo { URL := "", videoInfo := .obj [], error := "", loading := false }
      = ({ URL := "", videoInfo := .obj [], error := "", loading := false },
          [.toastError "Please enter a valid YouTube URL."]) :=
  ⟨((handlers_reject_input
      { URL := "not a url", videoInfo := .null, error := "", loading := false }).2.1
        (by decide) (by decide)).1,
   ((handlers_reject_input
      { URL := "", videoInfo := .obj [], error := "", loading := false }).1 rfl).2⟩

theorem prop_of_optProp_arr {data : JsVal} {name : String} {items : List JsVal}
    (h : data.optProp name = .arr items) : data.prop name = .ok (.arr items) := by
  cases hp : data.prop name with
  | error e =>
    simp only [JsVal.optProp, hp] at h
    cases h
  | ok x =>
    simp only [JsVal.optProp, hp] at h
    rw [h]

theorem length_falsy_undefined : ((JsVal.undefined).optProp "length").truthy = false := rfl

theorem length_falsy_null : ((JsVal.null).optProp "length").truthy = false := rfl

theorem length_falsy_nil : ((JsVal.arr []).optProp "length").truthy = false := by
  simp [JsVal.optProp, JsVal.prop, JsVal.truthy]

theorem length_truthy_cons (first : JsVal) (rest : List JsVal) :
    ((JsVal.arr (first :: rest)).optProp "length").truthy = true := by
  simp only [JsVal.optProp, JsVal.prop, if_true, JsVal.truthy, List.length_cons]
  rw [decide_eq_true_iff]
  push_cast
  omega

theorem firstFormatUrl_of_arr {data first : JsVal} {rest : List JsVal}
    (h : data.optProp "formats" = .arr (first :: rest)) :
    firstFormatUrl data = .ok (first.optProp "url") := by
  have hp := prop_of_optProp_arr h
  simp only [firstFormatUrl, hp, bind, Except.bind, JsVal.index]
  rfl

/-- C5, as stated, fails: the first format carries the non-empty locator `http://a b`, which
is no URL; the assignment to `window.location.href` throws inside the `try`, the `catch` shows
`Failed to download video. Please try again.`, and the page does not navigate. -/
theorem downloadVideoSettled_unparsed_url :
    "http://a b" ≠ "" ∧
    downloadVideoSettled sampleBrowser
        (.fulfilled (.obj [("formats", .arr [.obj [("url", .str "http://a b")]])]))
        { URL := "https://youtu.be/xyz789", videoInfo := .obj [], error := "", loading := true }
      = ({ URL := "https://youtu.be/xyz789", videoInfo := .obj [], error := "", loading := false },
          [.toastError "Failed to download video. Please try again.", .consoleError]) ∧
    downloadVideoSettled sampleBrowser
        (.fulfilled (.obj [("formats", .arr [.obj [("url", .str "http://a b")]])]))
        { URL := "https://youtu.be/xyz789", videoInfo := .obj [], error := "", loading := true }
      ≠ ({ URL := "https://youtu.be/xyz789", videoInfo := .obj [], error := "", loading := false },
          [.navigate (.str "http://a b"), .toastSuccess "Download started successfully!"]) := by
  have h : downloadVideoSettled sampleBrowser
        (.fulfilled (.obj [("formats", .arr [.obj [("url", .str "http://a b")]])]))
        { URL := "https://youtu.be/xyz789", videoInfo := .obj [], error := "", loading := true }
      = ({ URL := "https://youtu.be/xyz789", videoInfo := .obj [], error := "", loading := false },
          [.toastError "Failed to download video. Please try again.", .consoleError]) := rfl
  refine ⟨by decide, h, ?_⟩
  rw [h]
  intro e
  simp at e

/-- C5, amended: the settled streaming exchange is classified by its `formats`.  Missing or
empty: the toast `No streaming data available for this video.`, no navigation.  A first entry
whose `url` is truthy (a non-empty string among others) and parses as a URL: the navigation to
exactly that value and the success toast.  A first entry whose `url` is truthy and does not
parse: the toast `Failed to download video. Please try again.`, no navigation.  A first entry
whose `url` is missing, `null` or empty: the toast `No valid download link found.`, no
navigation, whatever the later entries are.  The toasts differ, and in each case the busy flag
is lowered and nothing else changes. -/
theorem downloadVideoSettled_classifies (b : Browser) (s : State) (data : JsVal) :
    ((data.optProp "formats" = .undefined ∨ data.optProp "formats" = .null ∨
        data.optProp "formats" = .arr []) →
      downloadVideoSettled b (.fulfilled data) s
        = ({ s with loading := false },
            [.toastError "No streaming data available for this video."])) ∧
    (∀ first rest, data.optProp "formats" = .arr (first :: rest) →
      (first.optProp "url").truthy = true → b.hrefParses (first.optProp "url") = true →
      downloadVideoSettled b (.fulfilled data) s
        = ({ s with loading := false },
            [.navigate (first.optProp "url"),
              .toastSuccess "Download started successfully!"])) ∧
    (∀ first rest, data.optProp "formats" = .arr (first :: rest) →
      (first.optProp "url").truthy = true → b.hrefParses (first.optProp "url") = false →
      downloadVideoSettled b (.fulfilled data) s
        = ({ s with loading := false },
            [.toastError "Failed to download video. Please try again.", .consoleError])) ∧
    (∀ first rest, data.optProp "formats" = .arr (first :: rest) →
      (first.optProp "url").truthy = false →
      downloadVideoSettled b (.fulfilled data) s
        = ({ s with loading := false }, [.toastError "No valid download link found."])) ∧
    (∀ u : String, u ≠ "" → (JsVal.str u).truthy = true) ∧
    JsVal.undefined.truthy = false ∧ JsVal.null.truthy = false ∧
    (JsVal.str "").truthy = false ∧
    "No streaming data available for this video." ≠ "No valid download link found." ∧
    "No streaming data available for this video." ≠ "Download started successfully!" ∧
    "No valid download link found." ≠ "Download started successfully!" ∧
    "Failed to download video. Please try again." ≠ "Download started successfully!" ∧
    "Failed to download video. Please try again." ≠ "No valid download link found." ∧
    "Failed to download video. Please try again."
      ≠ "No streaming data available for this video." := by
  refine ⟨?_, ?_, ?_, ?_, ?_, rfl, rfl, by simp [JsVal.truthy], by decide, by decide,
    by decide, by decide, by decide, by decide⟩
  · rintro (h | h | h)
    · simp only [downloadVideoSettled, h, length_falsy_undefined]
      rfl
    · simp only [downloadVideoSettled, h, length_falsy_null]
      rfl
    · simp only [downloadVideoSettled, h, length_falsy_nil]
      rfl
  · intro first rest h ht hp
    simp only [downloadVideoSettled, h, length_truthy_cons, firstFormatUrl_of_arr h, ht,
      Browser.setHref, hp]
    rfl
  · intro first rest h ht hp
    simp only [downloadVideoSettled, h, length_truthy_cons, firstFormatUrl_of_arr h, ht,
      Browser.setHref, hp]
    rfl
  · intro first rest h ht
    simp only [downloadVideoSettled, h, length_truthy_cons, firstFormatUrl_of_arr h, ht]
    rfl
  · intro u hu
    simp [JsVal.truthy, hu]

/-- C5, amended, on the scenarios: one format with a locator that parses, an empty `formats`,
no `formats`, a first format without locator before one that has it, a first format whose
locator is `null` or the empty string, and a first format whose locator does not parse. -/
theorem downloadVideoSettled_classifies_witness :
    downloadVideoSettled sampleBrowser
        (.fulfilled (.obj [("formats", .arr [.obj [("url", .str "http://cdn/x.mp4")]])]))
        { URL := "https://youtu.be/xyz789", videoInfo := .obj [], error := "", loading := true }
      = ({ URL := "https://youtu.be/xyz789", videoInfo := .obj [], error := "", loading := false },
          [.navigate (.str "http://cdn/x.mp4"),
            .toastSuccess "Download started successfully!"]) ∧
    downloadVideoSettled sampleBrowser (.fulfilled (.obj [("formats", .arr [])])) initialState
      = (initialState, [.toastError "No streaming data available for this video."]) ∧
    downloadVideoSettled sampleBrowser (.fulfilled (.obj [])) initialState
      = (initialState, [.toastError "No streaming data available for this video."]) ∧
    downloadVideoSettled sampleBrowser
        (.fulfilled (.obj [("formats", .arr [.obj [], .obj [("url", .str "http://cdn/x.mp4")]])]))
        initialState
      = (initialState, [.toastError "No valid download link found."]) ∧
    downloadVideoSettled sampleBrowser
        (.fulfilled (.obj [("formats", .arr [.obj [("url", .null)]])])) initialState
      = (initialState, [.toastError "No valid download link found."]) ∧
    downloadVideoSettled sampleBrowser
        (.fulfilled (.obj [("formats", .arr [.obj [("url", .str "")]])])) initialState
      = (initialState, [.toastError "No valid download link found."]) ∧
    downloadVideoSettled sampleBrowser
        (.fulfilled (.obj [("formats", .arr [.obj [("url", .str "http://a b")]])])) initialState
      = (initialState,
          [.toastError "Failed to download video. Please try again.", .consoleError]) :=
  ⟨(downloadVideoSettled_classifies _ _ _).2.1 (.obj [("url", .str "http://cdn/x.mp4")]) []
      rfl (by decide) (by decide),
   (downloadVideoSettled_classifies _ _ _).1 (Or.inr (Or.inr rfl)),
   (downloadVideoSettled_classifies _ _ _).1 (Or.inl rfl),
   (downloadVideoSettled_classifies _ _ _).2.2.2.1 (.obj [])
      [.obj [("url", .str "http://cdn/x.mp4")]] rfl rfl,
   (downloadVideoSettled_classifies _ _ _).2.2.2.1 (.obj [("url", .null)]) [] rfl rfl,
   (downloadVideoSettled_classifies _ _ _).2.2.2.1 (.obj [("url", .str "")]) [] rfl
      (by decide),
   (downloadVideoSettled_classifies _ _ _).2.2.1 (.obj [("url", .str "http://a b")]) []
      rfl (by decide) (by decide)⟩

/-- C6: the details section reads `videoInfo.stats.views` without the guard that its
`thumbnails` read has.  A stored payload without `stats` makes the render throw a `TypeError`,
while a stored payload without `thumbnails` renders, with an empty image source. -/
theorem renderDetails_stats_unguarded :
    renderDetails
        (fetchVideoDetailsSettled
          (.fulfilled (.obj [("title", .str "t"), ("description", .str "d"),
            ("thumbnails", .arr [.obj [("url", .str "u")]])]))
          { URL := "https://youtu.be/xyz789", videoInfo := .null, error := "",
            loading := true }).1
      = .error (.typeError "views") ∧
    renderDetails
        (fetchVideoDetailsSettled
          (.fulfilled (.obj [("title", .str "t"), ("description", .str "d"),
            ("stats", .obj [("views", .num 1), ("likes", .num 2), ("comments", .num 3)])]))
          { URL := "https://youtu.be/xyz789", videoInfo := .null, error := "",
            loading := true }).1
      = .ok (some { thumbnailSrc := .str "", title := .str "t", description := .str "d",
                    views := .num 1, likes := .num 2, comments := .num 3 }) := by
  constructor <;> rfl

theorem fetchVideoDetails_videoInfo (s : State) :
    (fetchVideoDetails s).1.videoInfo = s.videoInfo := by
  unfold fetchVideoDetails
  split
  · rfl
  · split
    · rfl
    · split <;> rfl

theorem downloadVideo_videoInfo (s : State) : (downloadVideo s).1.videoInfo = s.videoInfo := by
  unfold downloadVideo
  split
  · rfl
  · split
    · rfl
    · split <;> rfl

theorem downloadVideoSettled_state (b : Browser) (r : Settled) (s : State) :
    (downloadVideoSettled b r s).1 = { s with loading := false } := by
  unfold downloadVideoSettled
  split
  · rfl
  · split
    · rfl
    · split
      · rfl
      · split
        · split <;> rfl
        · rfl

/-- C7: the stored metadata is left as it was by `fetchVideoDetails` up to its `await`, by its
rejected exchange, and by `downloadVideo` whatever its exchange gives; a fulfilled details
exchange stores its payload whole and `clearText` stores the empty string; in the transition
system no other event changes the stored metadata. -/
theorem videoInfo_frame :
    (∀ s, (fetchVideoDetails s).1.videoInfo = s.videoInfo) ∧
    (∀ s, (fetchVideoDetailsSettled .rejected s).1.videoInfo = s.videoInfo) ∧
    (∀ s, (downloadVideo s).1.videoInfo = s.videoInfo) ∧
    (∀ b r s, (downloadVideoSettled b r s).1.videoInfo = s.videoInfo) ∧
    (∀ data s, (fetchVideoDetailsSettled (.fulfilled data) s).1.videoInfo = data) ∧
    (∀ s, (clearText s).videoInfo = .str "") ∧
    (∀ (b : Browser) (w : World) (e : Event), (w.step b e).ui.videoInfo ≠ w.ui.videoInfo →
      e = .clearClick ∨
        ∃ i data id, e = .settle i (.fulfilled data) ∧
          w.outstanding.get? i = some (.details id)) := by
  refine ⟨fetchVideoDetails_videoInfo, fun _ => rfl, downloadVideo_videoInfo, ?_,
    fun _ _ => rfl, fun _ => rfl, ?_⟩
  · intro b r s
    rw [downloadVideoSettled_state]
  · intro b w e h
    cases e with
    | input value => exact absurd rfl h
    | fetchClick =>
      exfalso
      apply h
      simp only [World.step]
      split
      · rfl
      · exact fetchVideoDetails_videoInfo _
    | downloadClick =>
      exfalso
      apply h
      simp only [World.step]
      split
      · rfl
      · exact downloadVideo_videoInfo _
    | clearClick => exact Or.inl rfl
    | settle i r =>
      right
      simp only [World.step] at h
      cases ho : w.outstanding.get? i with
      | none =>
        rw [ho] at h
        exact absurd rfl h
      | some x =>
        rw [ho] at h
        cases x with
        | details id =>
          cases r with
          | fulfilled data => exact ⟨i, data, id, rfl, ho⟩
          | rejected => exact absurd rfl h
        | streaming id =>
          exfalso
          apply h
          simp only [downloadVideoSettled_state]

/-- C7 on a stored result that a fulfilled details exchange replaces: the event that changed
the stored metadata is that exchange. -/
theorem videoInfo_frame_witness :
    (World.step sampleBrowser
        { ui := { URL := "https://youtu.be/xyz789", videoInfo := .obj [("title", .str "t")],
                  error := "", loading := true },
          outstanding := [.details "xyz789"] }
        (.settle 0 (.fulfilled (.obj [("title", .str "n")])))).ui.videoInfo
      ≠ .obj [("title", .str "t")] ∧
    ((Event.settle 0 (.fulfilled (.obj [("title", .str "n")])) = .clearClick) ∨
      ∃ i data id, Event.settle 0 (.fulfilled (.obj [("title", .str "n")]))
          = .settle i (.fulfilled data) ∧
        [Exchange.details "xyz789"].get? i = some (.details id)) :=
  ⟨by simp [World.step, fetchVideoDetailsSettled],
   videoInfo_frame.2.2.2.2.2.2 sampleBrowser
    { ui := { URL := "https://youtu.be/xyz789", videoInfo := .obj [("title", .str "t")],
              error := "", loading := true },
      outstanding := [.details "xyz789"] }
    (.settle 0 (.fulfilled (.obj [("title", .str "n")])))
    (by simp [World.step, fetchVideoDetailsSettled])⟩

/-- C9: `clearText` empties the input and stores the empty string as metadata, whatever the
state was: the details section is not shown and the download button is disabled; the busy
flag and the error text stay. -/
theorem clearText_resets (s : State) :
    (clearText s).URL = "" ∧ (clearText s).videoInfo = .str "" ∧
      (clearText s).videoInfo.truthy = false ∧
      detailsShown (clearText s) = false ∧ renderDetails (clearText s) = .ok none ∧
      downloadDisabled (clearText s) = true ∧
      (clearText s).loading = s.loading ∧ (clearText s).error = s.error := by
  refine ⟨rfl, rfl, rfl, rfl, rfl, ?_, rfl, rfl⟩
  simp [downloadDisabled, clearText, JsVal.truthy]

theorem fetchVideoDetailsSettled_loading (r : Settled) (s : State) :
    (fetchVideoDetailsSettled r s).1.loading = false := by
  cases r <;> rfl

theorem downloadVideoSettled_loading (b : Browser) (r : Settled) (s : State) :
    (downloadVideoSettled b r s).1.loading = false := by
  rw [downloadVideoSettled_state]

theorem fetchVideoDetails_cases (s : State) :
    ((fetchVideoDetails s).1 = s ∧ issued (fetchVideoDetails s).2 = []) ∨
      ((fetchVideoDetails s).1.loading = true ∧ ∃ x, issued (fetchVideoDetails s).2 = [x]) := by
  unfold fetchVideoDetails
  split
  · exact Or.inl ⟨rfl, rfl⟩
  · split
    · exact Or.inl ⟨rfl, rfl⟩
    · split
      · exact Or.inl ⟨rfl, rfl⟩
      · exact Or.inr ⟨rfl, _, rfl⟩

theorem downloadVideo_cases (s : State) :
    ((downloadVideo s).1 = s ∧ issued (downloadVideo s).2 = []) ∨
      ((downloadVideo s).1.loading = true ∧ ∃ x, issued (downloadVideo s).2 = [x]) := by
  unfold downloadVideo
  split
  · exact Or.inl ⟨rfl, rfl⟩
  · split
    · exact Or.inl ⟨rfl, rfl⟩
    · split
      · exact Or.inl ⟨rfl, rfl⟩
      · exact Or.inr ⟨rfl, _, rfl⟩

theorem Inv_idle {w : World} (h : w.Inv) (hl : w.ui.loading ≠ true) : w.outstanding = [] := by
  by_contra hne
  exact hl (h.1.mpr hne)

theorem Inv_click {w : World} (h : w.Inv) (hl : w.ui.loading ≠ true) (s : State)
    (fx : List Effect)
    (hc : (s = w.ui ∧ issued fx = []) ∨ (s.loading = true ∧ ∃ x, issued fx = [x])) :
    World.Inv { ui := s, outstanding := w.outstanding ++ issued fx } := by
  have ho := Inv_idle h hl
  rcases hc with ⟨hs, hi⟩ | ⟨hs, x, hi⟩
  · rw [hs, hi, List.append_nil]
    exact h
  · rw [ho, hi]
    exact ⟨by simp [hs], by simp⟩

theorem Inv_settle {w : World} (h : w.Inv) (i : Nat) (x : Exchange)
    (hx : w.outstanding.get? i = some x) (s : State) (hs : s.loading = false) :
    World.Inv { ui := s, outstanding := w.outstanding.eraseIdx i } := by
  have hlen := h.2
  cases ho : w.outstanding with
  | nil => rw [ho] at hx; cases hx
  | cons y t =>
    rw [ho] at hlen hx
    have ht : t = [] := by
      cases t with
      | nil => rfl
      | cons z u => simp at hlen
    subst ht
    cases i with
    | zero => exact ⟨by simp [hs], by simp⟩
    | succ n => simp at hx

theorem Inv_step (b : Browser) {w : World} (h : w.Inv) (e : Event) : (w.step b e).Inv := by
  cases e with
  | input value => exact h
  | clearClick => exact h
  | fetchClick =>
    simp only [World.step]
    split
    · exact h
    · rename_i hd
      exact Inv_click h hd _ _ (fetchVideoDetails_cases w.ui)
  | downloadClick =>
    simp only [World.step]
    split
    · exact h
    · rename_i hd
      have hl : w.ui.loading ≠ true := by
        intro hl
        apply hd
        simp [downloadDisabled, hl]
      exact Inv_click h hl _ _ (downloadVideo_cases w.ui)
  | settle i r =>
    simp only [World.step]
    split
    · exact h
    · rename_i id hx
      exact Inv_settle h i _ hx _ (fetchVideoDetailsSettled_loading r _)
    · rename_i id hx
      exact Inv_settle h i _ hx _ (downloadVideoSettled_loading b r _)

theorem Inv_foldl (b : Browser) (es : List Event) {w : World} (h : w.Inv) :
    (es.foldl (World.step b) w).Inv := by
  induction es generalizing w with
  | nil => exact h
  | cons e es ih => exact ih (Inv_step b h e)

theorem Inv_run (b : Browser) (es : List Event) : (World.run b es).Inv :=
  Inv_foldl b es ⟨by simp [World.init, initialState], by simp [World.init]⟩

/-- C8: in every world reached from the first render by inputs, clicks and settled exchanges,
the busy flag is up exactly when an exchange is outstanding; while it is up the fetch and the
download button are disabled and a click on either leaves the world as it is; at most one
exchange is outstanding; and the settling of an exchange, whatever its outcome, lowers the
flag. -/
theorem busy_flag_invariant (b : Browser) (es : List Event) :
    ((World.run b es).ui.loading = true ↔ (World.run b es).outstanding ≠ []) ∧
    ((World.run b es).ui.loading = true →
      fetchDisabled (World.run b es).ui = true ∧ downloadDisabled (World.run b es).ui = true ∧
      (World.run b es).step b .fetchClick = World.run b es ∧
      (World.run b es).step b .downloadClick = World.run b es) ∧
    (World.run b es).outstanding.length ≤ 1 ∧
    (∀ i r, (World.run b es).outstanding.get? i ≠ none →
      ((World.run b es).step b (.settle i r)).ui.loading = false ∧
      ((World.run b es).step b (.settle i r)).outstanding = []) ∧
    (∀ r s, (fetchVideoDetailsSettled r s).1.loading = false ∧
      (downloadVideoSettled b r s).1.loading = false) := by
  have hinv := Inv_run b es
  refine ⟨hinv.1, ?_, hinv.2, ?_, fun r s =>
    ⟨fetchVideoDetailsSettled_loading r s, downloadVideoSettled_loading b r s⟩⟩
  · intro hl
    simp [fetchDisabled, downloadDisabled, World.step, hl]
  · intro i r hne
    have hinv2 := Inv_step b hinv (.settle i r)
    have hl : ((World.run b es).step b (.settle i r)).ui.loading = false := by
      simp only [World.step]
      split
      · rename_i hx
        exact absurd hx hne
      · exact fetchVideoDetailsSettled_loading r _
      · exact downloadVideoSettled_loading b r _
    refine ⟨hl, ?_⟩
    by_contra hc
    have := hinv2.1.mpr hc
    rw [hl] at this
    cases this

/-- C8 on a run: an input and a fetch click raise the flag with one exchange outstanding, a
second fetch click and a download click change nothing, and the settling lowers the flag. -/
theorem busy_flag_invariant_witness :
    (World.run sampleBrowser [.input "https://youtu.be/xyz789", .fetchClick]).ui.loading
      = true ∧
    (World.run sampleBrowser
      [.input "https://youtu.be/xyz789", .fetchClick]).outstanding.length = 1 ∧
    (World.run sampleBrowser [.input "https://youtu.be/xyz789", .fetchClick]).step
        sampleBrowser .fetchClick
      = World.run sampleBrowser [.input "https://youtu.be/xyz789", .fetchClick] ∧
    ((World.run sampleBrowser [.input "https://youtu.be/xyz789", .fetchClick]).step
      sampleBrowser (.settle 0 .rejected)).ui.loading = false :=
  have hl : (World.run sampleBrowser
      [.input "https://youtu.be/xyz789", .fetchClick]).ui.loading = true := by
    decide
  ⟨hl, by decide,
   ((busy_flag_invariant sampleBrowser
      [.input "https://youtu.be/xyz789", .fetchClick]).2.1 hl).2.2.1,
   ((busy_flag_invariant sampleBrowser
      [.input "https://youtu.be/xyz789", .fetchClick]).2.2.2.1 0 .rejected (by decide)).1⟩

end YouTubeDownloader
